import Mathlib

/-
  Verification of the MKR1400-Nust GSM utility library (GSM_Utils.h / GSM_Utils.cpp).

  The C++ code is shallowly embedded: each class becomes a structure, each
  method a pure Lean function on that structure.  The Arduino clock (millis())
  and the modem / transport outcomes are passed in explicitly as arguments.
  C++ `int` / `unsigned long` values are modelled as Nat (all reachable values
  in this code are small and non-negative); `unsigned long` subtraction, which
  wraps modulo 2^32 on the MKR1400, is modelled explicitly by `usub`.
-/

set_option maxRecDepth 100000

namespace GSMUtils

/-! ## Decimal rendering: the semantics of snprintf's "%d " conversion -/

/-- The ASCII character of a decimal digit d (0 ≤ d ≤ 9). -/
def digitChar (d : Nat) : Char := Char.ofNat (48 + d)

/-- Fuel-indexed decimal rendering of a natural number, most significant digit
first.  The fuel only bounds recursion depth; with fuel > n the result is the
usual decimal numeral. -/
def renderNatAux : Nat → Nat → List Char
  | 0, _ => []
  | fuel + 1, n =>
    if n < 10 then [digitChar n]
    else renderNatAux fuel (n / 10) ++ [digitChar (n % 10)]

/-- Decimal numeral of a natural number (printf "%u" / non-negative "%d"). -/
def renderNat (n : Nat) : List Char := renderNatAux (n + 1) n

/-- Decimal numeral of an integer: printf "%d" (minus sign, then magnitude). -/
def renderInt (v : Int) : List Char :=
  if v < 0 then '-' :: renderNat v.natAbs else renderNat v.toNat

/-- The characters snprintf(_, _, "%d ", v) tries to emit: the numeral and a
trailing space. -/
def renderSample (v : Int) : List Char := renderInt v ++ [' ']

/-- The return value of snprintf(_, _, "%d ", v): the untruncated length. -/
def renderLen (v : Int) : Nat := (renderSample v).length

/-! ## Decoding (specification side): parsing a space-separated chunk back -/

/-- Numeric value of a digit character. -/
def charVal (c : Char) : Nat := c.toNat - 48

/-- Value of a decimal numeral (fold over the digit characters). -/
def parseNat (cs : List Char) : Nat := cs.foldl (fun a c => a * 10 + charVal c) 0

/-- Value of a possibly minus-signed decimal token. -/
def parseIntTok (cs : List Char) : Int :=
  match cs with
  | [] => 0
  | c :: rest => if c = '-' then -(parseNat rest : Int) else (parseNat (c :: rest) : Int)

/-- Split a character list into maximal space-free tokens, dropping spaces. -/
def splitTokensAux : List Char → List Char → List (List Char)
  | [], cur => if cur = [] then [] else [cur]
  | c :: cs, cur =>
    if c = ' ' then (if cur = [] then splitTokensAux cs [] else cur :: splitTokensAux cs [])
    else splitTokensAux cs (cur ++ [c])

/-- Decode a serialized chunk: the integer values of its space-separated
tokens, in order. -/
def decodeChunk (cs : List Char) : List Int := (splitTokensAux cs []).map parseIntTok

/-! ## SensorBuffer (GSM_Utils.h lines 102-117, GSM_Utils.cpp lines 173-258) -/

/-- Fixed capacity of the sample array (GSM_Utils.h line 104). -/
def MAX_SAMPLES : Nat := 500

/-- State of a SensorBuffer: the backing array (a 500-element list), the
sample count and the write index. -/
structure SensorBuffer where
  samples : List Int
  sampleCount : Nat
  currentIndex : Nat
deriving DecidableEq

/-- The constructor: sampleCount(0), currentIndex(0), then clear(), which
zeroes the storage. -/
def SensorBuffer.init : SensorBuffer :=
  { samples := List.replicate MAX_SAMPLES 0, sampleCount := 0, currentIndex := 0 }

/-- SensorBuffer::addSample — stores at currentIndex only when
currentIndex < MAX_SAMPLES; otherwise the call changes nothing.  The C++
method returns void; the branch outcome is exposed separately by
addSampleAccepted. -/
def SensorBuffer.addSample (b : SensorBuffer) (v : Int) : SensorBuffer :=
  if b.currentIndex < MAX_SAMPLES then
    { samples := b.samples.set b.currentIndex v,
      sampleCount := b.currentIndex + 1,
      currentIndex := b.currentIndex + 1 }
  else b

/-- Whether SensorBuffer::addSample takes its storing branch (the value is
accepted rather than silently dropped). -/
def SensorBuffer.addSampleAccepted (b : SensorBuffer) : Bool :=
  decide (b.currentIndex < MAX_SAMPLES)

/-- SensorBuffer::clear — resets both counters and zeroes the storage. -/
def SensorBuffer.clear (_b : SensorBuffer) : SensorBuffer :=
  { samples := List.replicate MAX_SAMPLES 0, sampleCount := 0, currentIndex := 0 }

/-- SensorBuffer::getSampleCount. -/
def SensorBuffer.getSampleCount (b : SensorBuffer) : Nat := b.sampleCount

/-- SensorBuffer::isFull — currentIndex ≥ MAX_SAMPLES. -/
def SensorBuffer.isFull (b : SensorBuffer) : Bool :=
  decide (MAX_SAMPLES ≤ b.currentIndex)

/-- The stored samples, in insertion order: the first sampleCount array
entries (the only entries any method ever reads). -/
def SensorBuffer.stored (b : SensorBuffer) : List Int := b.samples.take b.sampleCount

/-- Well-formedness: exactly the states reachable from the constructor via
the methods (the two counters agree, stay within capacity, and the array
keeps its compile-time length). -/
def SensorBuffer.WF (b : SensorBuffer) : Prop :=
  b.currentIndex = b.sampleCount ∧ b.sampleCount ≤ MAX_SAMPLES ∧
    b.samples.length = MAX_SAMPLES

instance (b : SensorBuffer) : Decidable b.WF := by
  unfold SensorBuffer.WF
  infer_instance

/-! ## SensorBuffer::getDataAsString (GSM_Utils.cpp lines 222-229)

The loop writes sample i while pos < maxLength - 10, via
snprintf(buffer + pos, maxLength - pos, "%d ", samples[i]), advancing pos by
snprintf's return value (the untruncated length), and finally stores a NUL at
buffer[pos].  We model the byte stores themselves: the indices receiving
payload characters, the indices receiving snprintf's own terminators, the
payload characters in order, and the index of the final NUL store. -/

/-- Write trace of getDataAsString. -/
structure StrOut where
  payloadIdx : List Nat
  nulIdx : List Nat
  content : List Char
  finalPos : Nat
deriving DecidableEq

/-- The loop of getDataAsString over the remaining samples, at write position
pos in a destination of maxLength m.  snprintf with size m - pos stores at
most m - pos - 1 payload characters plus its terminator, but returns the full
untruncated length, which is what pos advances by. -/
def getDataAsStringAux (m : Nat) : List Int → Nat → StrOut
  | [], pos => ⟨[], [], [], pos⟩
  | v :: vs, pos =>
    if pos < m - 10 then
      let L := renderLen v
      let w := min L (m - pos - 1)
      let rest := getDataAsStringAux m vs (pos + L)
      ⟨(List.range w).map (pos + ·) ++ rest.payloadIdx,
       (pos + w) :: rest.nulIdx,
       (renderSample v).take w ++ rest.content,
       rest.finalPos⟩
    else ⟨[], [], [], pos⟩

/-- SensorBuffer::getDataAsString — the full write trace, including the final
NUL store at buffer[pos]. -/
def SensorBuffer.getDataAsString (b : SensorBuffer) (maxLength : Nat) : StrOut :=
  getDataAsStringAux maxLength b.stored 0

/-- Every index stored to by getDataAsString (payload bytes, snprintf
terminators, and the final NUL). -/
def StrOut.allWriteIdx (o : StrOut) : List Nat := o.payloadIdx ++ o.nulIdx ++ [o.finalPos]

/-! ## SensorBuffer::getDataAsChunks (GSM_Utils.cpp lines 238-258)

Each chunk is a 200-byte buffer; the inner loop writes sample i while
pos < 190 via snprintf(chunks[chunk] + pos, 200 - pos, "%d ", samples[i]).
A chunk is emitted (NUL-terminated, chunkCount incremented) only when pos > 0.
Empty groups occur only after all samples are exhausted, so the emitted
chunks are exactly the serializations of the non-empty groups, in order.
The division sampleCount / maxChunks is unguarded; C++ division by zero is
undefined behaviour, modelled by an Option result. -/

/-- Division as the C++ expression a / b: undefined (none) when b = 0. -/
def cdiv? (a b : Nat) : Option Nat := if b = 0 then none else some (a / b)

/-- samplesPerChunk for maxChunks ≥ 1: sampleCount / maxChunks, bumped to 1
when the quotient is 0. -/
def samplesPerChunk (n k : Nat) : Nat := if n / k = 0 then 1 else n / k

/-- samplesPerChunk as computed by the code, undefined at maxChunks = 0. -/
def samplesPerChunkChecked (n k : Nat) : Option Nat :=
  (cdiv? n k).map (fun q => if q = 0 then 1 else q)

/-- The sample group of chunk c: indices [c * spc, min(c * spc + spc, n))
of the stored list (whose length is the sample count n). -/
def chunkGroup (stored : List Int) (spc c : Nat) : List Int :=
  (stored.take (c * spc + spc)).drop (c * spc)

/-- The characters actually stored into one chunk by the inner loop:
sample v is processed while pos < 190, snprintf stores at most 200 - pos - 1
of its characters, and pos advances by the untruncated length. -/
def serializeGroupChars : List Int → Nat → List Char
  | [], _ => []
  | v :: vs, pos =>
    if pos < 190 then
      (renderSample v).take (199 - pos) ++ serializeGroupChars vs (pos + renderLen v)
    else []

/-- The final value of pos for one chunk (the emission test is pos > 0). -/
def serializeGroupPos : List Int → Nat → Nat
  | [], pos => pos
  | v :: vs, pos => if pos < 190 then serializeGroupPos vs (pos + renderLen v) else pos

/-- SensorBuffer::getDataAsChunks — the emitted chunks in order, none when
maxChunks = 0 (division by zero). -/
def SensorBuffer.getDataAsChunks (b : SensorBuffer) (maxChunks : Nat) :
    Option (List (List Char)) :=
  (samplesPerChunkChecked b.sampleCount maxChunks).map (fun spc =>
    (List.range maxChunks).filterMap (fun c =>
      let g := chunkGroup b.stored spc c
      if 0 < serializeGroupPos g 0 then some (serializeGroupChars g 0) else none))

/-- Total length of the untruncated rendering of a group ("%d " per sample).
When this is at most 190 the whole group fits in its chunk. -/
def groupRenderLen (g : List Int) : Nat := (g.map renderLen).sum

/-! ## Clocked fragments: millis(), unsigned arithmetic -/

/-- 2^32: unsigned long on the MKR1400 (SAMD21) is 32 bits wide. -/
def U32 : Nat := 4294967296

/-- Wrapping unsigned-long subtraction a - b (both reduced modulo 2^32). -/
def usub (a b : Nat) : Nat := (a % U32 + U32 - b % U32) % U32

/-! ## NonBlockingDelay (GSM_Utils.cpp lines 144-163) -/

/-- State of a NonBlockingDelay. -/
structure NonBlockingDelay where
  startTime : Nat
  duration : Nat
deriving DecidableEq

/-- The constructor NonBlockingDelay(ms): duration := ms,
startTime := millis(). -/
def NonBlockingDelay.start (now ms : Nat) : NonBlockingDelay := ⟨now, ms⟩

/-- NonBlockingDelay::isComplete — (millis() - startTime) ≥ duration, with
unsigned wrap-around subtraction. -/
def NonBlockingDelay.isComplete (d : NonBlockingDelay) (now : Nat) : Bool :=
  decide (d.duration ≤ usub now d.startTime)

/-- NonBlockingDelay::reset — startTime := millis(); the duration is
replaced only when the argument is positive (0, the default, keeps it). -/
def NonBlockingDelay.reset (d : NonBlockingDelay) (now ms : Nat) : NonBlockingDelay :=
  ⟨now, if 0 < ms then ms else d.duration⟩

/-! ## GSMConnection (GSM_Utils.cpp lines 30-134)

The modem outcomes (gsmAccess.begin, gprs.attachGPRS) and the TCP client
outcome (client.connect) are external capabilities, passed as Booleans; the
clock is passed as now = millis(). -/

/-- Rate limit between connection attempts (GSM_Utils.cpp line 44). -/
def MIN_RETRY_INTERVAL : Nat := 5000

/-- CONNECTION_TIMEOUT (GSM_Utils.h line 41). -/
def CONNECTION_TIMEOUT : Nat := 30000

/-- State of a GSMConnection. -/
structure GSMConnection where
  isConnected : Bool
  lastConnectionAttempt : Nat
  connectionTimeout : Nat
deriving DecidableEq

/-- The constructor: isConnected(false), lastConnectionAttempt(0),
connectionTimeout(0). -/
def GSMConnection.init : GSMConnection := ⟨false, 0, 0⟩

/-- Outcome of GSMConnection::connect: the returned Boolean, the new state,
and whether the attach sequence was reached (the side-effecting part after
the rate-limit gate). -/
structure ConnectResult where
  ret : Bool
  st : GSMConnection
  attachAttempted : Bool
deriving DecidableEq

/-- GSMConnection::connect — no-op true when already connected; false with no
side effects within 5000 ms of the last recorded attempt; otherwise records
the attempt time and deadline and runs gsmAccess.begin then (on success)
gprs.attachGPRS. -/
def GSMConnection.connect (g : GSMConnection) (now : Nat) (gsmReady gprsReady : Bool) :
    ConnectResult :=
  if g.isConnected then ⟨true, g, false⟩
  else if usub now g.lastConnectionAttempt < MIN_RETRY_INTERVAL then ⟨false, g, false⟩
  else
    let g1 : GSMConnection :=
      ⟨g.isConnected, now, (now + CONNECTION_TIMEOUT) % U32⟩
    if gsmReady then
      if gprsReady then ⟨true, ⟨true, g1.lastConnectionAttempt, g1.connectionTimeout⟩, true⟩
      else ⟨false, g1, true⟩
    else ⟨false, g1, true⟩

/-- GSMConnection::isReady — isConnected(millis() < connectionTimeout). -/
def GSMConnection.isReady (g : GSMConnection) (now : Nat) : Bool :=
  g.isConnected && decide (now < g.connectionTimeout)

/-- GSMConnection::disconnect — stops the client and clears the flag when
connected. -/
def GSMConnection.disconnect (g : GSMConnection) : GSMConnection :=
  if g.isConnected then ⟨false, g.lastConnectionAttempt, g.connectionTimeout⟩ else g

/-- THINGSPEAK_SERVER (GSM_Utils.h line 34). -/
def THINGSPEAK_SERVER : String := "api.thingspeak.com"

/-- WRITE_API_KEY (GSM_Utils.h line 36). -/
def WRITE_API_KEY : String := "POWWNFLAIARHZL10"

/-- The strings printed to the client by sendData on the success path:
request line, Host header, Connection: close, blank line (println appends
CR LF). -/
def requestBytes (url method : String) : List String :=
  [method, " ", url, " HTTP/1.1\r\n",
   "Host: ", THINGSPEAK_SERVER ++ "\r\n",
   "Connection: close\r\n", "\r\n"]

/-- Outcome of GSMConnection::sendData: the returned Boolean, the new state,
and the strings written to the transport. -/
structure SendResult where
  ret : Bool
  st : GSMConnection
  writes : List String
deriving DecidableEq

/-- GSMConnection::sendData — ensures readiness (calling connect once if
needed), then attempts the transport-level client.connect; on success writes
the request bytes and returns true; on any failure returns false with
nothing written.  No response is read or awaited. -/
def GSMConnection.sendData (g : GSMConnection) (now : Nat)
    (gsmReady gprsReady clientConnectOk : Bool) (url method : String) : SendResult :=
  let ready : Bool × GSMConnection :=
    if g.isReady now then (true, g)
    else
      let c := g.connect now gsmReady gprsReady
      (c.ret, c.st)
  if ready.1 then
    if clientConnectOk then ⟨true, ready.2, requestBytes url method⟩
    else ⟨false, ready.2, []⟩
  else ⟨false, ready.2, []⟩

/-! ## ThingSpeak helpers (GSM_Utils.cpp lines 348-395) -/

/-- State of the GSMSSLClient as seen by handleResponse: pending input bytes
and the connected flag. -/
structure ClientState where
  inbox : List Char
  connected : Bool
deriving DecidableEq

/-- GSMConnection::handleResponse — reads (and logs) one pending byte if any;
stops the client when no data is pending and it reports disconnected. -/
def handleResponseStep (c : ClientState) : ClientState :=
  match c.inbox with
  | _ :: rest => { c with inbox := rest }
  | [] => if c.connected then c else { c with connected := false }

/-- The response-polling window of sendToThingSpeak: repeated handleResponse
calls until the 5000 ms delay elapses (modelled as fuel) or isReady fails.
It only consumes input; nothing of it flows into the returned Boolean. -/
def pollResponses (g : GSMConnection) (now : Nat) : Nat → ClientState → ClientState
  | 0, c => c
  | fuel + 1, c => if g.isReady now then pollResponses g now fuel (handleResponseStep c) else c

/-- sendToThingSpeak — constructs a fresh GSMConnection, builds the update
URL, sends it with method GET, then (on success only) polls responses for up
to 5000 ms before returning. The Boolean result is the sendData result. -/
def sendToThingSpeak (now : Nat) (gsmReady gprsReady clientConnectOk : Bool)
    (client : ClientState) (fuel : Nat) (data : String) (field : Nat) :
    Bool × ClientState :=
  let url := "/update?api_key=" ++ WRITE_API_KEY ++ "&field" ++ toString field ++ "=" ++ data
  let r := GSMConnection.init.sendData now gsmReady gprsReady clientConnectOk url "GET"
  if r.ret then (true, pollResponses r.st now fuel client) else (false, client)

/-! ## Lemmas: the decimal rendering decodes back to the value -/

lemma charVal_digitChar : ∀ d, d < 10 → charVal (digitChar d) = d := by decide

lemma digitChar_ne_space : ∀ d, d < 10 → digitChar d ≠ ' ' := by decide

lemma digitChar_ne_dash : ∀ d, d < 10 → digitChar d ≠ '-' := by decide

lemma renderNatAux_mem {fuel n : Nat} {c : Char} (h : c ∈ renderNatAux fuel n) :
    ∃ d, d < 10 ∧ c = digitChar d := by
  induction fuel generalizing n with
  | zero => simp [renderNatAux] at h
  | succ fuel ih =>
    rw [renderNatAux] at h
    by_cases hn : n < 10
    · simp [hn] at h
      exact ⟨n, hn, h⟩
    · simp [hn] at h
      rcases h with h | h
      · exact ih h
      · exact ⟨n % 10, Nat.mod_lt _ (by omega), h⟩

lemma renderNatAux_ne_nil {fuel n : Nat} (h : 0 < fuel) : renderNatAux fuel n ≠ [] := by
  cases fuel with
  | zero => omega
  | succ fuel =>
    rw [renderNatAux]
    by_cases hn : n < 10 <;> simp [hn]

lemma parseNat_append_digit (cs : List Char) (c : Char) :
    parseNat (cs ++ [c]) = parseNat cs * 10 + charVal c := by
  simp [parseNat, List.foldl_append]

lemma parseNat_renderNatAux {fuel n : Nat} (h : n < fuel) :
    parseNat (renderNatAux fuel n) = n := by
  induction fuel generalizing n with
  | zero => omega
  | succ fuel ih =>
    rw [renderNatAux]
    by_cases hn : n < 10
    · simp [hn, parseNat, charVal_digitChar n hn]
    · have hdiv : n / 10 < n := Nat.div_lt_self (by omega) (by omega)
      simp only [hn, if_false]
      rw [parseNat_append_digit, ih (by omega), charVal_digitChar _ (Nat.mod_lt _ (by omega))]
      omega

lemma parseNat_renderNat (n : Nat) : parseNat (renderNat n) = n :=
  parseNat_renderNatAux (Nat.lt_succ_self n)

lemma renderNat_ne_nil (n : Nat) : renderNat n ≠ [] :=
  renderNatAux_ne_nil (Nat.succ_pos n)

lemma renderNat_mem {n : Nat} {c : Char} (h : c ∈ renderNat n) :
    ∃ d, d < 10 ∧ c = digitChar d := renderNatAux_mem h

lemma renderInt_ne_nil (v : Int) : renderInt v ≠ [] := by
  rw [renderInt]
  by_cases hv : v < 0 <;> simp [hv, renderNat_ne_nil]

lemma renderInt_ne_space {v : Int} {c : Char} (h : c ∈ renderInt v) : c ≠ ' ' := by
  rw [renderInt] at h
  by_cases hv : v < 0 <;> simp [hv] at h
  · rcases h with h | h
    · subst h; decide
    · obtain ⟨d, hd, rfl⟩ := renderNat_mem h
      exact digitChar_ne_space d hd
  · obtain ⟨d, hd, rfl⟩ := renderNat_mem h
    exact digitChar_ne_space d hd

lemma parseIntTok_renderInt (v : Int) : parseIntTok (renderInt v) = v := by
  rw [renderInt]
  by_cases hv : v < 0
  · simp only [hv, if_true, parseIntTok, if_pos rfl]
    rw [parseNat_renderNat]
    omega
  · simp only [hv, if_false]
    obtain ⟨c, rest, hcr⟩ : ∃ c rest, renderNat v.toNat = c :: rest := by
      cases h : renderNat v.toNat with
      | nil => exact absurd h (renderNat_ne_nil _)
      | cons c rest => exact ⟨c, rest, rfl⟩
    rw [hcr, parseIntTok]
    have hc : c ≠ '-' := by
      have : c ∈ renderNat v.toNat := by rw [hcr]; exact List.mem_cons_self _ _
      obtain ⟨d, hd, rfl⟩ := renderNat_mem this
      exact digitChar_ne_dash d hd
    rw [if_neg hc, ← hcr, parseNat_renderNat]
    omega

/-! ## Lemmas: splitting a joined chunk recovers the tokens -/

lemma splitTokensAux_cons_ne (c : Char) (cs cur : List Char) (hc : c ≠ ' ') :
    splitTokensAux (c :: cs) cur = splitTokensAux cs (cur ++ [c]) := by
  simp [splitTokensAux, hc]

lemma splitTokensAux_cons_space (cs cur : List Char) (h : cur ≠ []) :
    splitTokensAux (' ' :: cs) cur = cur :: splitTokensAux cs [] := by
  simp [splitTokensAux, h]

lemma splitTokensAux_token (tok : List Char) :
    ∀ (cur rest : List Char), tok ≠ [] → (∀ c ∈ tok, c ≠ ' ') →
      splitTokensAux (tok ++ ' ' :: rest) cur = (cur ++ tok) :: splitTokensAux rest [] := by
  induction tok with
  | nil => intro _ _ h _; exact absurd rfl h
  | cons c t ih =>
    intro cur rest _ hns
    have hc : c ≠ ' ' := hns c (List.mem_cons_self _ _)
    rw [List.cons_append, splitTokensAux_cons_ne c _ _ hc]
    cases t with
    | nil =>
      rw [List.nil_append, splitTokensAux_cons_space _ _ (by simp)]
    | cons c2 t2 =>
      rw [ih (cur ++ [c]) rest (by simp) (fun x hx => hns x (List.mem_cons_of_mem _ hx))]
      simp

lemma splitTokensAux_flatten (g : List Int) :
    splitTokensAux ((g.map renderSample).flatten) [] = g.map renderInt := by
  induction g with
  | nil => simp [splitTokensAux]
  | cons v vs ih =>
    have : ((v :: vs).map renderSample).flatten =
        renderInt v ++ ' ' :: (vs.map renderSample).flatten := by
      simp [renderSample]
    rw [this, splitTokensAux_token (renderInt v) [] _ (renderInt_ne_nil v)
      (fun c hc => renderInt_ne_space hc), ih]
    simp

lemma decodeChunk_flatten (g : List Int) :
    decodeChunk ((g.map renderSample).flatten) = g := by
  rw [decodeChunk, splitTokensAux_flatten, List.map_map]
  have : parseIntTok ∘ renderInt = id := by
    funext v
    exact parseIntTok_renderInt v
  rw [this, List.map_id]

/-! ## Lemmas: chunk serialization -/

lemma renderLen_pos (v : Int) : 0 < renderLen v := by
  simp [renderLen, renderSample]

lemma serializeGroup_of_fits :
    ∀ (g : List Int) (pos : Nat), pos + groupRenderLen g ≤ 190 →
      serializeGroupChars g pos = (g.map renderSample).flatten ∧
      serializeGroupPos g pos = pos + groupRenderLen g := by
  intro g
  induction g with
  | nil => intro pos _; simp [serializeGroupChars, serializeGroupPos, groupRenderLen]
  | cons v vs ih =>
    intro pos hfit
    have hlen : groupRenderLen (v :: vs) = renderLen v + groupRenderLen vs := by
      simp [groupRenderLen]
    have hv := renderLen_pos v
    have hpos : pos < 190 := by omega
    have htake : (renderSample v).take (199 - pos) = renderSample v :=
      List.take_of_length_le (by rw [← renderLen]; omega)
    obtain ⟨ih1, ih2⟩ := ih (pos + renderLen v) (by omega)
    refine ⟨?_, ?_⟩
    · rw [serializeGroupChars, if_pos hpos, htake, ih1]
      simp
    · rw [serializeGroupPos, if_pos hpos, ih2]
      omega

lemma serializeGroupPos_le (g : List Int) : ∀ pos, pos ≤ serializeGroupPos g pos := by
  induction g with
  | nil => intro pos; simp [serializeGroupPos]
  | cons v vs ih =>
    intro pos
    rw [serializeGroupPos]
    by_cases hpos : pos < 190
    · rw [if_pos hpos]
      have := ih (pos + renderLen v)
      omega
    · rw [if_neg hpos]

lemma serializeGroupPos_pos_iff (g : List Int) : 0 < serializeGroupPos g 0 ↔ g ≠ [] := by
  cases g with
  | nil => simp [serializeGroupPos]
  | cons v vs =>
    simp only [ne_eq, List.cons_ne_nil, not_false_iff, iff_true]
    rw [serializeGroupPos, if_pos (by omega)]
    have h1 := serializeGroupPos_le vs (0 + renderLen v)
    have h2 := renderLen_pos v
    omega

lemma flatten_chunkGroups (l : List Int) (spc : Nat) :
    ∀ k, ((List.range k).map (chunkGroup l spc)).flatten = l.take (k * spc) := by
  intro k
  induction k with
  | zero => simp
  | succ k ih =>
    rw [List.range_succ, List.map_append, List.flatten_append, ih]
    have hslice : chunkGroup l spc k = (l.drop (k * spc)).take spc := by
      rw [chunkGroup, List.drop_take]
      congr 1
      omega
    simp only [List.map_cons, List.map_nil, List.flatten_cons, List.flatten_nil,
      List.append_nil, hslice]
    rw [Nat.succ_mul, List.take_add]

lemma flatten_filter_ne_nil {α : Type} (ls : List (List α)) :
    (ls.filter (fun g => !g.isEmpty)).flatten = ls.flatten := by
  induction ls with
  | nil => rfl
  | cons g gs ih =>
    cases g with
    | nil => simpa [List.filter] using ih
    | cons a t => simp [List.filter, ih]

lemma samplesPerChunk_pos (n k : Nat) : 1 ≤ samplesPerChunk n k := by
  rw [samplesPerChunk]
  by_cases h : n / k = 0
  · simp [h]
  · rw [if_neg h]
    exact Nat.pos_of_ne_zero h

lemma coverage_of_dvd_or_le {n k : Nat} (hk : 1 ≤ k) (h : k ∣ n ∨ n ≤ k) :
    n ≤ k * samplesPerChunk n k := by
  rcases h with hdvd | hle
  · rcases Nat.eq_zero_or_pos n with hn | hn
    · omega
    · have hkn : k ≤ n := Nat.le_of_dvd hn hdvd
      have hq : 1 ≤ n / k := Nat.one_le_div_iff (by omega) |>.2 hkn
      rw [samplesPerChunk, if_neg (by omega)]
      rw [Nat.mul_div_cancel' hdvd]
  · have := samplesPerChunk_pos n k
    calc n ≤ k := hle
    _ = k * 1 := by omega
    _ ≤ k * samplesPerChunk n k := Nat.mul_le_mul_left k this

lemma samplesPerChunkChecked_eq (n k : Nat) (hk : 1 ≤ k) :
    samplesPerChunkChecked n k = some (samplesPerChunk n k) := by
  rw [samplesPerChunkChecked, cdiv?, if_neg (by omega), Option.map_some', samplesPerChunk]

lemma getDataAsChunks_eq (b : SensorBuffer) (k : Nat) (hk : 1 ≤ k) :
    b.getDataAsChunks k = some
      (((List.range k).map (chunkGroup b.stored (samplesPerChunk b.sampleCount k))).filterMap
        (fun g => if 0 < serializeGroupPos g 0 then some (serializeGroupChars g 0) else none)) := by
  rw [SensorBuffer.getDataAsChunks, samplesPerChunkChecked_eq _ _ hk, Option.map_some',
    List.filterMap_map]
  rfl

lemma decoded_emitted_chunks (gs : List (List Int)) (hfit : ∀ g ∈ gs, groupRenderLen g ≤ 190) :
    (gs.filterMap
        (fun g => if 0 < serializeGroupPos g 0 then some (serializeGroupChars g 0) else none)).map
        decodeChunk
      = gs.filter (fun g => !g.isEmpty) := by
  induction gs with
  | nil => rfl
  | cons g gs ih =>
    have ihg := ih (fun x hx => hfit x (List.mem_cons_of_mem _ hx))
    cases g with
    | nil =>
      have hpos : ¬ 0 < serializeGroupPos ([] : List Int) 0 := by simp [serializeGroupPos]
      simp only [List.filterMap_cons, if_neg hpos, List.filter_cons]
      simpa using ihg
    | cons v t =>
      have hpos : 0 < serializeGroupPos (v :: t) 0 :=
        (serializeGroupPos_pos_iff _).2 (by simp)
      obtain ⟨hchars, _⟩ :=
        serializeGroup_of_fits (v :: t) 0 (by simpa using hfit (v :: t) (List.mem_cons_self _ _))
      have hdec : decodeChunk (serializeGroupChars (v :: t) 0) = v :: t := by
        rw [hchars, decodeChunk_flatten]
      simp only [List.filterMap_cons, if_pos hpos, List.map_cons, hdec,
        List.filter_cons, List.isEmpty_cons, Bool.not_false, if_true, ihg]

lemma stored_length (b : SensorBuffer) (hwf : b.WF) : b.stored.length = b.sampleCount := by
  obtain ⟨_, h2, h3⟩ := hwf
  rw [SensorBuffer.stored, List.length_take, h3]
  omega

/-- Claim C1 (amended): for every well-formed buffer and every maxChunks = k ≥ 1,
getDataAsChunks emits at most k chunks, and each emitted chunk decodes to its
contiguous sample group; provided k divides the sample count or the count is
at most k, and each group's rendering fits in the 190-character chunk limit,
the concatenation of the decoded chunks reproduces exactly the stored
samples.  (Without those provisos samples are dropped: the last chunk is
capped at samplesPerChunk samples, and each chunk at 190 characters.) -/
theorem claim1_chunks_amended (b : SensorBuffer) (k : Nat) (hwf : b.WF) (hk : 1 ≤ k)
    (hcov : k ∣ b.sampleCount ∨ b.sampleCount ≤ k)
    (hfit : ∀ c, c < k →
      groupRenderLen (chunkGroup b.stored (samplesPerChunk b.sampleCount k) c) ≤ 190) :
    ∃ cs, b.getDataAsChunks k = some cs ∧ cs.length ≤ k ∧
      cs.map decodeChunk =
        ((List.range k).map (chunkGroup b.stored (samplesPerChunk b.sampleCount k))).filter
          (fun g => !g.isEmpty) ∧
      (cs.map decodeChunk).flatten = b.stored := by
  set spc := samplesPerChunk b.sampleCount k with hspc
  set gs := (List.range k).map (chunkGroup b.stored spc) with hgs
  refine ⟨gs.filterMap
    (fun g => if 0 < serializeGroupPos g 0 then some (serializeGroupChars g 0) else none),
    getDataAsChunks_eq b k hk, ?_, ?_, ?_⟩
  · calc _ ≤ gs.length := List.length_filterMap_le _ _
    _ = k := by rw [hgs, List.length_map, List.length_range]
  · refine decoded_emitted_chunks gs ?_
    intro g hg
    rw [hgs] at hg
    obtain ⟨c, hc, rfl⟩ := List.mem_map.1 hg
    exact hfit c (List.mem_range.1 hc)
  · rw [decoded_emitted_chunks gs (by
      intro g hg
      rw [hgs] at hg
      obtain ⟨c, hc, rfl⟩ := List.mem_map.1 hg
      exact hfit c (List.mem_range.1 hc))]
    rw [flatten_filter_ne_nil, hgs, flatten_chunkGroups]
    refine List.take_of_length_le ?_
    rw [stored_length b hwf]
    exact coverage_of_dvd_or_le hk hcov

/-- Claim C1 (amended) witness: a buffer holding [5, 23, 100, 7] with
maxChunks = 2 satisfies the provisos, and the two chunks decode to
[5, 23] and [100, 7], whose concatenation is the stored list. -/
theorem claim1_chunks_amended_witness :
    (([5, 23, 100, 7] : List Int).foldl SensorBuffer.addSample SensorBuffer.init).WF ∧
    (∃ cs, (([5, 23, 100, 7] : List Int).foldl SensorBuffer.addSample
        SensorBuffer.init).getDataAsChunks 2 = some cs ∧ cs.length ≤ 2 ∧
      cs.map decodeChunk =
        ((List.range 2).map (chunkGroup (([5, 23, 100, 7] : List Int).foldl
          SensorBuffer.addSample SensorBuffer.init).stored
          (samplesPerChunk (([5, 23, 100, 7] : List Int).foldl SensorBuffer.addSample
            SensorBuffer.init).sampleCount 2))).filter (fun g => !g.isEmpty) ∧
      (cs.map decodeChunk).flatten = (([5, 23, 100, 7] : List Int).foldl
        SensorBuffer.addSample SensorBuffer.init).stored) :=
  ⟨by decide, claim1_chunks_amended _ 2 (by decide) (by decide) (by decide) (by decide)⟩

/-- Claim C1 counterexample: a buffer holding [10, 20, 30] with maxChunks = 2
yields samplesPerChunk = 1 and emits chunks decoding to [10] and [20]; the
sample 30 is never serialized, so the concatenation [10, 20] fails to
reproduce the 3 stored samples (the last chunk does not absorb the
remainder). -/
theorem claim1_counterexample :
    ((([10, 20, 30] : List Int).foldl SensorBuffer.addSample
        SensorBuffer.init).getDataAsChunks 2).map
      (fun cs => (cs.map decodeChunk).flatten) = some [10, 20] ∧
    (([10, 20, 30] : List Int).foldl SensorBuffer.addSample SensorBuffer.init).stored
      = [10, 20, 30] ∧
    ([10, 20] : List Int) ≠ [10, 20, 30] := by decide

lemma take_set_self {α : Type} (l : List α) (n : Nat) (a : α) :
    (l.set n a).take n = l.take n := by
  induction l generalizing n with
  | nil => simp
  | cons x xs ih =>
    cases n with
    | zero => simp
    | succ n => simp [ih]

lemma addSample_spec (b : SensorBuffer) (v : Int) (hwf : b.WF)
    (hlt : b.sampleCount < MAX_SAMPLES) :
    (b.addSample v).stored = b.stored ++ [v] ∧ (b.addSample v).WF ∧
      (b.addSample v).sampleCount = b.sampleCount + 1 := by
  obtain ⟨h1, h2, h3⟩ := hwf
  have hcond : b.currentIndex < MAX_SAMPLES := by omega
  rw [SensorBuffer.addSample, if_pos hcond]
  refine ⟨?_, ⟨?_, ?_, ?_⟩, ?_⟩
  · show (b.samples.set b.currentIndex v).take (b.currentIndex + 1) = b.stored ++ [v]
    rw [SensorBuffer.stored, ← h1, List.take_succ, take_set_self,
      List.getElem?_set_self (by omega)]
    rfl
  · show b.currentIndex + 1 = b.currentIndex + 1
    rfl
  · show b.currentIndex + 1 ≤ MAX_SAMPLES
    omega
  · show (b.samples.set b.currentIndex v).length = MAX_SAMPLES
    rw [List.length_set, h3]
  · show b.currentIndex + 1 = b.sampleCount + 1
    omega

lemma foldl_addSample_spec :
    ∀ (vs : List Int) (b : SensorBuffer), b.WF → b.sampleCount + vs.length ≤ MAX_SAMPLES →
      (vs.foldl SensorBuffer.addSample b).stored = b.stored ++ vs ∧
      (vs.foldl SensorBuffer.addSample b).WF ∧
      (vs.foldl SensorBuffer.addSample b).sampleCount = b.sampleCount + vs.length := by
  intro vs
  induction vs with
  | nil =>
    intro b hwf _
    exact ⟨by simp, hwf, by simp⟩
  | cons v t ih =>
    intro b hwf hlen
    obtain ⟨hst, hwf', hcnt⟩ := addSample_spec b v hwf (by simp at hlen; omega)
    obtain ⟨iht, ihwf, ihcnt⟩ := ih (b.addSample v) hwf' (by simp at hlen ⊢; omega)
    refine ⟨?_, ihwf, ?_⟩
    · rw [List.foldl_cons, iht, hst]
      simp
    · rw [List.foldl_cons, ihcnt, hcnt]
      simp only [List.length_cons]
      omega

lemma getDataAsChunks_ext (b : SensorBuffer) (k n : Nat) (l : List Int)
    (hc : b.sampleCount = n) (hs : b.stored = l) :
    b.getDataAsChunks k = (samplesPerChunkChecked n k).map (fun spc =>
      (List.range k).filterMap (fun c =>
        let g := chunkGroup l spc c
        if 0 < serializeGroupPos g 0 then some (serializeGroupChars g 0) else none)) := by
  rw [SensorBuffer.getDataAsChunks, hc, hs]

lemma b432_facts :
    (((List.range 432).map Int.ofNat).foldl SensorBuffer.addSample
        SensorBuffer.init).sampleCount = 432 ∧
    (((List.range 432).map Int.ofNat).foldl SensorBuffer.addSample
        SensorBuffer.init).stored = (List.range 432).map Int.ofNat := by
  obtain ⟨hst, _, hcnt⟩ := foldl_addSample_spec ((List.range 432).map Int.ofNat)
    SensorBuffer.init (by decide) (by decide)
  refine ⟨by simpa using hcnt, ?_⟩
  rw [hst]
  rfl

/-- Claim C2 counterexample: appending 0..431 to a fresh buffer and calling
getDataAsChunks with maxChunks = 2 does not decode to the groups 0..215 and
216..431 claimed by the spec scenario: the 190-character chunk limit cuts
each 216-sample group short. -/
theorem claim2_counterexample :
    ((((List.range 432).map Int.ofNat).foldl SensorBuffer.addSample
        SensorBuffer.init).getDataAsChunks 2).map (List.map decodeChunk) ≠
      some [(List.range 216).map Int.ofNat,
            (List.range 216).map (fun i => (216 + i : Int))] := by
  rw [getDataAsChunks_ext _ 2 432 ((List.range 432).map Int.ofNat)
    b432_facts.1 b432_facts.2]
  decide

/-- Claim C2 (amended): with capacity 500, 432 samples of values 0..431, and
maxChunks = 2, getDataAsChunks yields exactly two chunks, but chunk 0
decodes to the 67 samples 0..66 and chunk 1 to the 48 samples 216..263: each
chunk stops at the 190-character limit of its 200-byte buffer, and the
samples 67..215 and 264..431 are dropped. -/
theorem claim2_scenario_amended :
    ((((List.range 432).map Int.ofNat).foldl SensorBuffer.addSample
        SensorBuffer.init).getDataAsChunks 2).map (List.map decodeChunk) =
      some [(List.range 67).map Int.ofNat,
            (List.range 48).map (fun i => (216 + i : Int))] := by
  rw [getDataAsChunks_ext _ 2 432 ((List.range 432).map Int.ofNat)
    b432_facts.1 b432_facts.2]
  decide

/-! ## Claim C8: the unguarded division in getDataAsChunks -/

/-- Claim C8: getDataAsChunks divides sampleCount by maxChunks with no
guard, so maxChunks = 0 makes the division (and the whole call) undefined,
while for every maxChunks ≥ 1 the computation is total and the adjusted
samplesPerChunk is at least 1. -/
theorem claim8_division_guard (b : SensorBuffer) (n k : Nat) (hk : 1 ≤ k) :
    b.getDataAsChunks 0 = none ∧
    samplesPerChunkChecked n 0 = none ∧
    samplesPerChunkChecked n k = some (samplesPerChunk n k) ∧
    1 ≤ samplesPerChunk n k ∧
    ∃ cs, b.getDataAsChunks k = some cs := by
  refine ⟨?_, ?_, samplesPerChunkChecked_eq n k hk, samplesPerChunk_pos n k,
    ⟨_, getDataAsChunks_eq b k hk⟩⟩
  · rw [SensorBuffer.getDataAsChunks, samplesPerChunkChecked, cdiv?, if_pos rfl]
    rfl
  · rw [samplesPerChunkChecked, cdiv?, if_pos rfl]
    rfl

/-- Claim C8 witness: a fresh buffer with 7 pretend samples and maxChunks
values 0 and 3. -/
theorem claim8_division_guard_witness :
    SensorBuffer.init.getDataAsChunks 0 = none ∧
    samplesPerChunkChecked 7 0 = none ∧
    samplesPerChunkChecked 7 3 = some (samplesPerChunk 7 3) ∧
    1 ≤ samplesPerChunk 7 3 ∧
    ∃ cs, SensorBuffer.init.getDataAsChunks 3 = some cs :=
  claim8_division_guard SensorBuffer.init 7 3 (by decide)

/-! ## Claim C3: the buffer never exceeds its capacity and rejects when full -/

lemma addSample_WF (b : SensorBuffer) (v : Int) (hwf : b.WF) : (b.addSample v).WF := by
  obtain ⟨h1, h2, h3⟩ := hwf
  rw [SensorBuffer.addSample]
  by_cases hcond : b.currentIndex < MAX_SAMPLES
  · rw [if_pos hcond]
    refine ⟨rfl, ?_, ?_⟩
    · show b.currentIndex + 1 ≤ MAX_SAMPLES
      omega
    · show (b.samples.set b.currentIndex v).length = MAX_SAMPLES
      rw [List.length_set, h3]
  · rw [if_neg hcond]
    exact ⟨h1, h2, h3⟩

lemma foldl_addSample_WF :
    ∀ (vs : List Int) (b : SensorBuffer), b.WF → (vs.foldl SensorBuffer.addSample b).WF := by
  intro vs
  induction vs with
  | nil => intro b hwf; exact hwf
  | cons v t ih =>
    intro b hwf
    exact ih (b.addSample v) (addSample_WF b v hwf)

/-- Claim C3: starting from any well-formed buffer state, no sequence of
addSample calls pushes sampleCount above MAX_SAMPLES = 500, and, on any
buffer reporting isFull, a further addSample leaves the entire state
(count, index and all stored samples) unchanged and takes its rejecting
branch (the C++ method is void; no value is stored). -/
theorem claim3_buffer_invariant (b : SensorBuffer) (hwf : b.WF) (vs : List Int) (v : Int) :
    (vs.foldl SensorBuffer.addSample b).sampleCount ≤ MAX_SAMPLES ∧
    (b.isFull = true → b.addSample v = b ∧ b.addSampleAccepted = false) := by
  refine ⟨(foldl_addSample_WF vs b hwf).2.1, ?_⟩
  intro hfull
  have hge : ¬ b.currentIndex < MAX_SAMPLES := by
    simp only [SensorBuffer.isFull, decide_eq_true_iff] at hfull
    omega
  exact ⟨by rw [SensorBuffer.addSample, if_neg hge],
    by simp only [SensorBuffer.addSampleAccepted, decide_eq_false_iff_not]; exact hge⟩

/-- Claim C3 witness: a full buffer (500 stored zeroes) rejects a further
addSample 9, and folding [4, 5] into it keeps sampleCount at the capacity. -/
theorem claim3_buffer_invariant_witness :
    (SensorBuffer.mk (List.replicate 500 0) 500 500).WF ∧
    ((([4, 5] : List Int).foldl SensorBuffer.addSample
        (SensorBuffer.mk (List.replicate 500 0) 500 500)).sampleCount ≤ MAX_SAMPLES ∧
      ((SensorBuffer.mk (List.replicate 500 0) 500 500).isFull = true →
        (SensorBuffer.mk (List.replicate 500 0) 500 500).addSample 9 =
          SensorBuffer.mk (List.replicate 500 0) 500 500 ∧
        (SensorBuffer.mk (List.replicate 500 0) 500 500).addSampleAccepted = false)) :=
  ⟨by decide, claim3_buffer_invariant _ (by decide) [4, 5] 9⟩

/-! ## Claim C5: getDataAsString write bounds -/

lemma getDataAsStringAux_spec (m : Nat) :
    ∀ (vs : List Int) (pos : Nat), pos < m → (∀ v ∈ vs, renderLen v ≤ 10) →
      (∀ i ∈ (getDataAsStringAux m vs pos).payloadIdx, i < m - 1) ∧
      (∀ i ∈ (getDataAsStringAux m vs pos).nulIdx, i < m) ∧
      (getDataAsStringAux m vs pos).finalPos < m ∧
      ∃ j, (getDataAsStringAux m vs pos).content = ((vs.take j).map renderSample).flatten := by
  intro vs
  induction vs with
  | nil =>
    intro pos hpos _
    exact ⟨by simp [getDataAsStringAux], by simp [getDataAsStringAux],
      by simpa [getDataAsStringAux], 0, by simp [getDataAsStringAux]⟩
  | cons v t ih =>
    intro pos hpos hsmall
    by_cases hcond : pos < m - 10
    · have hL : renderLen v ≤ 10 := hsmall v (List.mem_cons_self _ _)
      have hw : min (renderLen v) (m - pos - 1) = renderLen v := by omega
      obtain ⟨ih1, ih2, ih3, j, ihc⟩ :=
        ih (pos + renderLen v) (by omega) (fun x hx => hsmall x (List.mem_cons_of_mem _ hx))
      simp only [getDataAsStringAux, hcond, if_true, hw]
      refine ⟨?_, ?_, ih3, j + 1, ?_⟩
      · intro i hi
        simp only [List.mem_append, List.mem_map, List.mem_range] at hi
        rcases hi with ⟨t', ht', rfl⟩ | hi
        · omega
        · exact ih1 i hi
      · intro i hi
        simp only [List.mem_cons] at hi
        rcases hi with rfl | hi
        · omega
        · exact ih2 i hi
      · rw [List.take_succ_cons, List.map_cons, List.flatten_cons, ihc,
          List.take_of_length_le (by rw [← renderLen])]
    · simp only [getDataAsStringAux, hcond, if_false]
      exact ⟨by simp, by simp, hpos, 0, by simp⟩

/-- Claim C5 (amended): for every buffer state and maxLength ≥ 1, provided
every stored sample renders ("%d " form, sign and trailing space included) in
at most 10 characters, getDataAsString stores every payload character below
index maxLength - 1, keeps every store (snprintf terminators and the final
NUL included) below index maxLength, and the payload it writes is the
space-separated decimal rendering of a prefix of the stored samples.
(Without the 10-character proviso a single oversized sample makes pos
overshoot maxLength and the final NUL lands out of bounds.) -/
theorem claim5_serializeAll_amended (b : SensorBuffer) (m : Nat) (_hwf : b.WF) (hm : 1 ≤ m)
    (hsmall : ∀ v ∈ b.stored, renderLen v ≤ 10) :
    (∀ i ∈ (b.getDataAsString m).payloadIdx, i < m - 1) ∧
    (∀ i ∈ (b.getDataAsString m).allWriteIdx, i < m) ∧
    ∃ j, (b.getDataAsString m).content = ((b.stored.take j).map renderSample).flatten := by
  obtain ⟨h1, h2, h3, hc⟩ := getDataAsStringAux_spec m b.stored 0 (by omega) hsmall
  refine ⟨h1, ?_, hc⟩
  intro i hi
  simp only [StrOut.allWriteIdx, List.mem_append, List.mem_cons, List.not_mem_nil,
    or_false] at hi
  rcases hi with (hi | hi) | rfl
  · have := h1 i hi
    omega
  · exact h2 i hi
  · exact h3

/-- Claim C5 (amended) witness: one stored sample 7 with maxLength 12. -/
theorem claim5_serializeAll_amended_witness :
    (SensorBuffer.init.addSample 7).WF ∧
    ((∀ i ∈ ((SensorBuffer.init.addSample 7).getDataAsString 12).payloadIdx, i < 12 - 1) ∧
      (∀ i ∈ ((SensorBuffer.init.addSample 7).getDataAsString 12).allWriteIdx, i < 12) ∧
      ∃ j, ((SensorBuffer.init.addSample 7).getDataAsString 12).content =
        (((SensorBuffer.init.addSample 7).stored.take j).map renderSample).flatten) :=
  ⟨by decide, claim5_serializeAll_amended _ 12 (by decide) (by decide) (by decide)⟩

/-- Claim C5 counterexample: a single stored sample 1234567890 (whose "%d "
rendering is 11 characters) with maxLength = 11 defeats the pos < maxLength -
10 guard: snprintf returns 11, pos jumps to 11, and the final NUL is stored
at buffer[11], one past the end of the 11-byte destination — the claimed
"never overflows" bound fails. -/
theorem claim5_counterexample :
    ((SensorBuffer.init.addSample 1234567890).getDataAsString 11).allWriteIdx.all
        (fun i => decide (i < 11)) = false ∧
    ((SensorBuffer.init.addSample 1234567890).getDataAsString 11).finalPos = 11 := by decide

/-! ## Lemmas: unsigned-long subtraction on un-wrapped timestamps -/

lemma usub_eq_sub (a b : Nat) (hb : b ≤ a) (ha : a < U32) : usub a b = a - b := by
  simp only [usub, U32] at ha ⊢
  omega

/-! ## Claim C7: isReady is gated by the deadline -/

/-- Claim C7: isReady returns false whenever now has reached the stored
connectionTimeout deadline, regardless of the connection flag, and returns
true exactly when the state is connected and now is before the deadline. -/
theorem claim7_isReady (g : GSMConnection) (now : Nat) :
    (g.connectionTimeout ≤ now → g.isReady now = false) ∧
    (g.isReady now = true ↔ g.isConnected = true ∧ now < g.connectionTimeout) := by
  rw [GSMConnection.isReady]
  cases hc : g.isConnected
  · simp
  · simp

/-- Claim C7 witness: a connected manager whose deadline 5 has passed at
now = 7 is not ready. -/
theorem claim7_isReady_witness :
    (GSMConnection.mk true 0 5).isReady 7 = false :=
  (claim7_isReady (GSMConnection.mk true 0 5) 7).1 (by decide)

/-! ## Claim C4: connect() rate limiting between attempts -/

/-- Claim C4 (amended): on a manager that is not connected, a connect() call
whose rate-limit gate passes (at least 5000 ms since the recorded last
attempt) reaches the attach sequence; if that attach fails, a second
connect() call less than 5000 ms later returns false and performs no side
effects — the attach is not reached and the state (lastConnectionAttempt and
the deadline included) is untouched — while any call 5000 ms or more after
the first attempt reaches the attach sequence again. -/
theorem claim4_rate_limit_amended (g : GSMConnection) (t1 t2 : Nat)
    (gsm1 gprs1 gsm2 gprs2 : Bool)
    (hnc : g.isConnected = false)
    (ht1 : t1 < U32) (ht2 : t2 < U32)
    (hlast : g.lastConnectionAttempt ≤ t1)
    (hgap : MIN_RETRY_INTERVAL ≤ t1 - g.lastConnectionAttempt)
    (hfail : gsm1 = false ∨ gprs1 = false)
    (horder : t1 ≤ t2) (hsoon : t2 < t1 + MIN_RETRY_INTERVAL) :
    (g.connect t1 gsm1 gprs1).attachAttempted = true ∧
    (g.connect t1 gsm1 gprs1).st.lastConnectionAttempt = t1 ∧
    ((g.connect t1 gsm1 gprs1).st.connect t2 gsm2 gprs2) =
      ⟨false, (g.connect t1 gsm1 gprs1).st, false⟩ ∧
    (∀ t3 gsm3 gprs3, t3 < U32 → t1 + MIN_RETRY_INTERVAL ≤ t3 →
      ((g.connect t1 gsm1 gprs1).st.connect t3 gsm3 gprs3).attachAttempted = true) := by
  have hrl1 : ¬ usub t1 g.lastConnectionAttempt < MIN_RETRY_INTERVAL := by
    rw [usub_eq_sub _ _ hlast ht1]
    omega
  have hst : (g.connect t1 gsm1 gprs1).st =
      ⟨false, t1, (t1 + CONNECTION_TIMEOUT) % U32⟩ ∧
      (g.connect t1 gsm1 gprs1).attachAttempted = true := by
    rw [GSMConnection.connect, if_neg (by rw [hnc]; exact Bool.false_ne_true),
      if_neg hrl1]
    rcases hfail with rfl | rfl
    · simp [hnc]
    · cases gsm1 <;> simp [hnc]
  refine ⟨hst.2, by rw [hst.1], ?_, ?_⟩
  · rw [hst.1, GSMConnection.connect]
    rw [if_neg (by simp), if_pos ?_]
    show usub t2 t1 < MIN_RETRY_INTERVAL
    rw [usub_eq_sub _ _ horder ht2]
    omega
  · intro t3 gsm3 gprs3 ht3 hlate
    rw [hst.1, GSMConnection.connect]
    rw [if_neg (by simp), if_neg ?_]
    · cases gsm3 <;> cases gprs3 <;> simp
    · show ¬ usub t3 t1 < MIN_RETRY_INTERVAL
      rw [usub_eq_sub _ _ (by omega) ht3]
      omega

/-- Claim C4 (amended) witness: last attempt recorded at 0, a failing attach
at t1 = 6000, a rate-limited second call at t2 = 8000, and a fresh attach at
t3 = 11000. -/
theorem claim4_rate_limit_amended_witness :
    (GSMConnection.init.connect 6000 false false).attachAttempted = true ∧
    (GSMConnection.init.connect 6000 false false).st.lastConnectionAttempt = 6000 ∧
    ((GSMConnection.init.connect 6000 false false).st.connect 8000 true true) =
      ⟨false, (GSMConnection.init.connect 6000 false false).st, false⟩ ∧
    (∀ t3 gsm3 gprs3, t3 < U32 → 6000 + MIN_RETRY_INTERVAL ≤ t3 →
      ((GSMConnection.init.connect 6000 false false).st.connect t3 gsm3 gprs3).attachAttempted
        = true) :=
  claim4_rate_limit_amended GSMConnection.init 6000 8000 false false true true
    (by decide) (by decide) (by decide) (by decide) (by decide) (Or.inl rfl)
    (by decide) (by decide)

/-- Claim C4 counterexample: with lastConnectionAttempt = 0 (the constructor
value), a connect() at t1 = 4999 is itself rate-limited (no attempt recorded),
and a second connect() at t2 = 5001 — less than 5000 ms after the first, on a
manager still disconnected — reaches the attach sequence and overwrites
lastConnectionAttempt, contradicting the claim that every such second call
returns false with no side effects. -/
theorem claim4_counterexample :
    GSMConnection.init.isConnected = false ∧
    (GSMConnection.init.connect 4999 false false) = ⟨false, GSMConnection.init, false⟩ ∧
    (5001 : Nat) - 4999 < 5000 ∧
    ¬ (((GSMConnection.init.connect 4999 false false).st.connect 5001 false false).ret = false ∧
       ((GSMConnection.init.connect 4999 false false).st.connect 5001 false false).st =
         (GSMConnection.init.connect 4999 false false).st ∧
       ((GSMConnection.init.connect 4999 false false).st.connect 5001 false
         false).attachAttempted = false) ∧
    ((GSMConnection.init.connect 4999 false false).st.connect 5001 false
      false).attachAttempted = true ∧
    ((GSMConnection.init.connect 4999 false false).st.connect 5001 false
      false).st.lastConnectionAttempt = 5001 := by decide

/-! ## Claim C6: sendData reports exactly the transport outcome -/

/-- Claim C6: sendData returns true only when the transport-level
client.connect succeeded (after readiness was established, by isReady or a
successful connect), in which case exactly the request bytes (request line,
Host header, Connection: close, blank line) are written; a failed transport
connect, or a failed readiness/connect establishment, yields false with
nothing written, and no response is awaited or validated. -/
theorem claim6_sendData (g : GSMConnection) (now : Nat)
    (gsmOk gprsOk clientOk : Bool) (url method : String) :
    ((g.sendData now gsmOk gprsOk clientOk url method).ret = true →
      clientOk = true ∧
      (g.sendData now gsmOk gprsOk clientOk url method).writes = requestBytes url method ∧
      (g.isReady now = true ∨ (g.connect now gsmOk gprsOk).ret = true)) ∧
    ((clientOk = false ∨ (g.isReady now = false ∧ (g.connect now gsmOk gprsOk).ret = false)) →
      (g.sendData now gsmOk gprsOk clientOk url method).ret = false ∧
      (g.sendData now gsmOk gprsOk clientOk url method).writes = []) := by
  rw [GSMConnection.sendData]
  cases hr : g.isReady now <;> cases hc : clientOk <;>
    cases hcr : (g.connect now gsmOk gprsOk).ret <;> simp [hr, hc, hcr]

/-- Claim C6 witness: a connected, in-deadline manager with a successful
transport connect writes the request bytes; with a failed transport connect
it returns false. -/
theorem claim6_sendData_witness :
    ((GSMConnection.mk true 0 100).sendData 5 true true true "/u" "GET").writes =
      requestBytes "/u" "GET" ∧
    ((GSMConnection.mk true 0 100).sendData 5 true true false "/u" "GET").ret = false :=
  ⟨((claim6_sendData (GSMConnection.mk true 0 100) 5 true true true "/u" "GET").1
      (by decide)).2.1,
    ((claim6_sendData (GSMConnection.mk true 0 100) 5 true true false "/u" "GET").2
      (Or.inl rfl)).1⟩

/-! ## Claim C9: sendToThingSpeak mirrors sendData and starts fresh -/

/-- Claim C9: sendToThingSpeak returns exactly what the underlying sendData
call on a freshly constructed GSMConnection returns — true whenever the
request was transmitted, regardless of the response stream and polling
budget, and false otherwise; the fresh connection starts disconnected and
not ready. -/
theorem claim9_sendToThingSpeak (now : Nat) (gsmOk gprsOk clientOk : Bool)
    (client : ClientState) (fuel : Nat) (data : String) (field : Nat) :
    (sendToThingSpeak now gsmOk gprsOk clientOk client fuel data field).1 =
      (GSMConnection.init.sendData now gsmOk gprsOk clientOk
        ("/update?api_key=" ++ WRITE_API_KEY ++ "&field" ++ toString field ++ "=" ++ data)
        "GET").ret ∧
    GSMConnection.init.isConnected = false ∧
    GSMConnection.init.isReady now = false := by
  refine ⟨?_, rfl, rfl⟩
  rw [sendToThingSpeak]
  cases hr : (GSMConnection.init.sendData now gsmOk gprsOk clientOk
      ("/update?api_key=" ++ WRITE_API_KEY ++ "&field" ++ toString field ++ "=" ++ data)
      "GET").ret <;> simp [hr]

/-! ## Claim C10: NonBlockingDelay::reset keeps the duration on 0 -/

/-- Claim C10: reset always restarts the interval at the current time; a
zero argument (the default) keeps the stored duration, a positive argument
replaces it, and consequently reset never changes a nonzero duration into
zero. -/
theorem claim10_reset (d : NonBlockingDelay) (now ms : Nat) :
    (ms = 0 → d.reset now ms = ⟨now, d.duration⟩) ∧
    (0 < ms → d.reset now ms = ⟨now, ms⟩) ∧
    ((d.reset now ms).duration = 0 → d.duration = 0) ∧
    (d.reset now ms).startTime = now := by
  rw [NonBlockingDelay.reset]
  by_cases hms : 0 < ms
  · simp [hms]
    omega
  · simp [hms]

/-- Claim C10 witness: resetting ⟨1, 7⟩ at now = 9 with the default argument
0 keeps duration 7; with argument 4 it becomes 4. -/
theorem claim10_reset_witness :
    (NonBlockingDelay.mk 1 7).reset 9 0 = ⟨9, 7⟩ ∧
    (NonBlockingDelay.mk 1 7).reset 9 4 = ⟨9, 4⟩ :=
  ⟨(claim10_reset (NonBlockingDelay.mk 1 7) 9 0).1 rfl,
    (claim10_reset (NonBlockingDelay.mk 1 7) 9 4).2.1 (by decide)⟩

end GSMUtils
